import Mathlib

/-!
Verification of the motor-skills feature-extraction and aggregation engine of
the AuraGameSurveyBackend repository.

The development shallowly embeds, over `ℚ`:
 - `src/utils/featureExtraction.js` (shipped inside `src/server.js` here):
   `extractAttemptFeatures` and its helpers (`dist`, `movingAverage`);
 - the bucketed stores `MotorPointerTraceBucket.addSamples` /
   `getSessionSamples` and `MotorAttemptBucket.addAttempts` /
   `getSessionAttempts`;
 - the aggregator `computeRoundFeatures` / `computeSessionFeatures` of
   `src/models/MotorSummary.js`;
 - the controller `logAttempts` of `src/controllers/motorController.js`
   (synchronous part and the `setImmediate` background part, modelled as two
   functions).

JS numbers are modelled as rationals.  `Math.sqrt` / `Math.hypot` are modelled
by `ratSqrt`, which is exact on rationals that are squares of rationals (all
concrete inputs used below are of that form) and returns the junk value `0`
elsewhere; `Math.log2` is modelled by `log2q` (exact on powers of two).  All
theorems proved below are either structural (they hold for any interpretation
of the square root / logarithm, since both sides of each equation go through
the same function) or are evaluated only at inputs where `ratSqrt` is exact.
-/

/-- Fuel-bounded Newton iteration for the integer square root (structural
recursion so that the kernel can evaluate it; it stops after logarithmically
many steps through the `else` branch). -/
def natSqrtGo (n : ℕ) : ℕ → ℕ → ℕ
  | 0, guess => guess
  | fuel + 1, guess =>
    let next := (guess + n / guess) / 2
    if next < guess then natSqrtGo n fuel next else guess

/-- Integer square root (floor).  Only its exactness matters below: `ratSqrt`
checks the produced root by squaring, so `natSqrt` merely has to be right on
perfect squares, which the Newton iteration guarantees. -/
def natSqrt (n : ℕ) : ℕ := if n ≤ 1 then n else natSqrtGo n n (n / 2 + 1)

/-- Model of `Math.sqrt` on rationals: exact when the argument is the square
of a rational, junk value `0` otherwise. -/
def ratSqrt (q : ℚ) : ℚ :=
  if 0 ≤ q ∧ natSqrt q.num.toNat * natSqrt q.num.toNat = q.num.toNat ∧
      natSqrt q.den * natSqrt q.den = q.den then
    (natSqrt q.num.toNat : ℚ) / (natSqrt q.den : ℚ)
  else 0

/-- Fueled floor base-2 logarithm on naturals (structural recursion). -/
def natLog2Go : ℕ → ℕ → ℕ
  | 0, _ => 0
  | fuel + 1, n => if 2 ≤ n then natLog2Go fuel (n / 2) + 1 else 0

/-- Model of `Math.log2` on rationals: floor log on integers `≥ 1` (exact on
powers of two), junk value `0` otherwise.  Every theorem below that mentions
`log2q` compares two occurrences of the same function, so the idealization is
not load-bearing. -/
def log2q (q : ℚ) : ℚ :=
  if 1 ≤ q ∧ q.den = 1 then (natLog2Go q.num.toNat q.num.toNat : ℚ) else 0

/-- A 2D point (used for `dist` arguments, mirroring the `{x, y}` objects of
the JS code). -/
structure Pt where
  x : ℚ
  y : ℚ
deriving DecidableEq

/-- `dist(a, b)` of `featureExtraction.js`: `Math.hypot(a.x - b.x, a.y - b.y)`. -/
def distQ (a b : Pt) : ℚ :=
  ratSqrt ((a.x - b.x) ^ 2 + (a.y - b.y) ^ 2)

/-- A pointer sample (`pointerSampleSchema` of `MotorPointerTraceBucket.js`);
`isDown` and `pointerType` are never read by the engine and are omitted. -/
structure Sample where
  round : ℕ
  tms : ℚ
  x : ℚ
  y : ℚ
deriving DecidableEq

/-- Default sample used where Lean needs a total indexing function; the JS
code never actually reads out of range on the paths modelled here. -/
def sample0 : Sample := ⟨0, 0, 0, 0⟩

/-- The point of a sample. -/
def Sample.pt (s : Sample) : Pt := ⟨s.x, s.y⟩

/-- A target: `{x, y, radius}`, normalized. -/
structure Target where
  x : ℚ
  y : ℚ
  radius : ℚ
deriving DecidableEq

/-- The point of a target. -/
def Target.pt (t : Target) : Pt := ⟨t.x, t.y⟩

/-- Distance from a sample to the target, `dist(s, target)` in the JS code. -/
def distTo (s : Sample) (t : Target) : ℚ := distQ s.pt t.pt

/-- `movingAverage(arr, w)` of `featureExtraction.js`: centered moving average
with edge truncation.  The JS loop bound `k >= i - floor(w/2)` for possibly
negative `i - floor(w/2)` coincides with truncated subtraction on `ℕ`. -/
def movingAverage (arr : List ℚ) (w : ℕ) : List ℚ :=
  if arr.length < w then arr
  else
    (List.range arr.length).map (fun i =>
      let ks := (List.range arr.length).filter
        (fun k => decide (i - w / 2 ≤ k) && decide (k ≤ i + w / 2))
      ((ks.map (fun k => arr.getD k 0)).sum) / (ks.length : ℚ))

/-- `Math.max(...arr)`: `none` on the empty list. -/
def listMax (l : List ℚ) : Option ℚ :=
  match l with
  | [] => none
  | a :: rest => some (rest.foldl max a)

/-- The velocity loop of step 4.1: per-step `vx`, `vy` and speed
(`Math.hypot(vx, vy)`), skipping steps with non-positive `dt`. -/
def velTriple (t x y : List ℚ) : List ℚ × List ℚ × List ℚ :=
  (List.range' 1 (t.length - 1)).foldl
    (fun acc i =>
      let dt := t.getD i 0 - t.getD (i - 1) 0
      if dt ≤ 0 then acc
      else
        let vxi := (x.getD i 0 - x.getD (i - 1) 0) / dt
        let vyi := (y.getD i 0 - y.getD (i - 1) 0) / dt
        (acc.1 ++ [vxi], acc.2.1 ++ [vyi], acc.2.2 ++ [ratSqrt (vxi ^ 2 + vyi ^ 2)]))
    ([], [], [])

/-- The acceleration loop of step 4.2.  As in the JS code, the time deltas are
indexed by the velocity index (`dt = t[i+1] - t[i]`), reproducing the source's
index alignment exactly. -/
def accTriple (t vx vy : List ℚ) : List ℚ × List ℚ × List ℚ :=
  (List.range' 1 (vx.length - 1)).foldl
    (fun acc i =>
      let dt := t.getD (i + 1) 0 - t.getD i 0
      if dt ≤ 0 then acc
      else
        let axi := (vx.getD i 0 - vx.getD (i - 1) 0) / dt
        let ayi := (vy.getD i 0 - vy.getD (i - 1) 0) / dt
        (acc.1 ++ [axi], acc.2.1 ++ [ayi], acc.2.2 ++ [ratSqrt (axi ^ 2 + ayi ^ 2)]))
    ([], [], [])

/-- The jerk loop of step 4.3 (`dt = t[i+2] - t[i+1]`); the JS guard
`!dt || dt <= 0` is equivalent to `dt ≤ 0` on rationals. -/
def jerkListOf (t ax ay : List ℚ) : List ℚ :=
  (List.range' 1 (ax.length - 1)).foldl
    (fun acc i =>
      let dt := t.getD (i + 2) 0 - t.getD (i + 1) 0
      if dt ≤ 0 then acc
      else
        acc ++ [ratSqrt (((ax.getD i 0 - ax.getD (i - 1) 0) / dt) ^ 2 +
                         ((ay.getD i 0 - ay.getD (i - 1) 0) / dt) ^ 2)])
    []

/-- The `timing` block of an (enriched) attempt. -/
structure Timing where
  reactionTimeMs : Option ℚ
  movementTimeMs : Option ℚ
  interTapMs : Option ℚ
deriving DecidableEq

/-- The `spatial` block. -/
structure Spatial where
  errorDistNorm : Option ℚ
  pathLengthNorm : Option ℚ
  directDistNorm : Option ℚ
  straightness : Option ℚ
deriving DecidableEq

/-- The `kinematics` block. -/
structure Kinematics where
  meanSpeed : Option ℚ
  peakSpeed : Option ℚ
  speedVar : Option ℚ
  meanAccel : Option ℚ
  peakAccel : Option ℚ
  jerkRMS : Option ℚ
  submovementCount : Option ℚ
  overshootCount : Option ℚ
deriving DecidableEq

/-- The `fitts` block. -/
structure Fitts where
  D : Option ℚ
  W : Option ℚ
  ID : Option ℚ
  throughput : Option ℚ
deriving DecidableEq

/-- The value returned by `extractAttemptFeatures`.  JS fields that are
`null` or absent (the minimal result returns empty `spatial` / `kinematics` /
`fitts` objects) are both modelled as `none`. -/
structure FeatureSet where
  timing : Timing
  spatial : Spatial
  kinematics : Kinematics
  fitts : Fitts
deriving DecidableEq

/-- The argument object of `extractAttemptFeatures`. -/
structure ExtractInput where
  samples : List Sample
  spawnTms : ℚ
  clickTms : ℚ
  target : Target
  prevClickTms : Option ℚ
deriving DecidableEq

/-- `EPS` of step 2 (movement-start detection threshold). -/
def EPS : ℚ := 0.003

/-- Step 1: the samples whose timestamps fall in `[spawnTms, clickTms]`. -/
def segOf (inp : ExtractInput) : List Sample :=
  inp.samples.filter (fun s => decide (inp.spawnTms ≤ s.tms) && decide (s.tms ≤ inp.clickTms))

/-- Step 2: index of the movement start inside the segment — one before the
first index whose displacement from the segment's first point exceeds `EPS`;
`0` if no crossing occurs. -/
def startIdxOf (seg : List Sample) : ℕ :=
  match (List.range seg.length).find?
      (fun i => decide (0 < i) &&
        decide (EPS < distQ (seg.getD i sample0).pt
          ⟨(seg.headD sample0).x, (seg.headD sample0).y⟩)) with
  | some i => i - 1
  | none => 0

/-- The moving segment of an input: segment from the movement start on. -/
def moveSegOf (inp : ExtractInput) : List Sample :=
  let seg := segOf inp
  seg.drop (startIdxOf seg)

/-- Overshoot detector 1 (global distance-to-target reversal, gated by
`4 × radius`), exactly as in step 6 of `extractAttemptFeatures`. -/
def overshootMethod1 (inp : ExtractInput) : ℕ :=
  let ms := moveSegOf inp
  let d := ms.map (fun s => distTo s inp.target)
  let gate := 4 * inp.target.radius
  (List.range' 2 (d.length - 2)).countP (fun i =>
    decide (d.getD (i - 1) 0 - d.getD (i - 2) 0 < -0.001) &&
    decide ((0.001 : ℚ) < d.getD i 0 - d.getD (i - 1) 0) &&
    decide (d.getD i 0 < gate))

/-- Overshoot detector 2 (final-approach reversal: last 30% of the moving
segment, no gate, only when the segment has more than 5 samples). -/
def overshootMethod2 (inp : ExtractInput) : ℕ :=
  let ms := moveSegOf inp
  if 5 < ms.length then
    let finalSeg := ms.drop (7 * ms.length / 10)
    let finalD := finalSeg.map (fun s => distTo s inp.target)
    (List.range' 2 (finalD.length - 2)).countP (fun i =>
      decide (finalD.getD (i - 1) 0 - finalD.getD (i - 2) 0 < -0.001) &&
      decide ((0.001 : ℚ) < finalD.getD i 0 - finalD.getD (i - 1) 0))
  else 0

/-- A coordinate step reversal with magnitude beyond `0.002` on both sides. -/
def stepReversal (prev cur : ℚ) : Bool :=
  (decide ((0.002 : ℚ) < prev) && decide (cur < -0.002)) ||
  (decide (prev < -0.002) && decide ((0.002 : ℚ) < cur))

/-- Overshoot detector 3 as the CODE implements it (positional oscillation
inside the gate): indices start at `3` and the detector runs only when the
moving segment has more than 4 samples. -/
def overshootMethod3 (inp : ExtractInput) : ℕ :=
  let ms := moveSegOf inp
  let d := ms.map (fun s => distTo s inp.target)
  let gate := 4 * inp.target.radius
  if 4 < ms.length then
    (List.range' 3 (ms.length - 3)).countP (fun i =>
      decide (d.getD i 0 < gate) &&
      (stepReversal ((ms.getD (i - 1) sample0).x - (ms.getD (i - 2) sample0).x)
                    ((ms.getD i sample0).x - (ms.getD (i - 1) sample0).x) ||
       stepReversal ((ms.getD (i - 1) sample0).y - (ms.getD (i - 2) sample0).y)
                    ((ms.getD i sample0).y - (ms.getD (i - 1) sample0).y)))
  else 0

/-- Overshoot detector 3 as the CLAIM states it: all samples inside the gate
whose x- or y-direction step reverses sign beyond `0.002` on both sides — no
segment-length guard, indices from the first one where a reversal pattern is
defined (`i ≥ 2`). -/
def overshootMethod3Claim (inp : ExtractInput) : ℕ :=
  let ms := moveSegOf inp
  let d := ms.map (fun s => distTo s inp.target)
  let gate := 4 * inp.target.radius
  (List.range' 2 (ms.length - 2)).countP (fun i =>
    decide (d.getD i 0 < gate) &&
    (stepReversal ((ms.getD (i - 1) sample0).x - (ms.getD (i - 2) sample0).x)
                  ((ms.getD i sample0).x - (ms.getD (i - 1) sample0).x) ||
     stepReversal ((ms.getD (i - 1) sample0).y - (ms.getD (i - 2) sample0).y)
                  ((ms.getD i sample0).y - (ms.getD (i - 1) sample0).y)))

/-- The minimal result of `extractAttemptFeatures` when fewer than 4 samples
fall in `[spawnTms, clickTms]` (the JS empty blocks become all-`none`). -/
def extractMinimal (inp : ExtractInput) : FeatureSet :=
  { timing :=
      { reactionTimeMs := some (inp.clickTms - inp.spawnTms)
        movementTimeMs := none
        interTapMs := inp.prevClickTms.map (fun p => inp.clickTms - p) }
    spatial := ⟨none, none, none, none⟩
    kinematics := ⟨none, none, none, none, none, none, none, none⟩
    fitts := ⟨none, none, none, none⟩ }

/-- The full extraction path of `extractAttemptFeatures` (segment length ≥ 4),
transcribed step by step from `featureExtraction.js`.  `Math.floor(len * 0.7)`
is modelled as `7 * len / 10` on `ℕ`. -/
def extractFull (inp : ExtractInput) : FeatureSet :=
  let seg := segOf inp
  let startIdx := startIdxOf seg
  let moveSeg := seg.drop startIdx
  let moveStart : Pt := ⟨(moveSeg.headD sample0).x, (moveSeg.headD sample0).y⟩
  let moveEnd : Pt := ⟨(moveSeg.getLastD sample0).x, (moveSeg.getLastD sample0).y⟩
  let reactionTimeMs := inp.clickTms - inp.spawnTms
  let movementTimeMs := (moveSeg.getLastD sample0).tms - (moveSeg.headD sample0).tms
  let pathLength := ((moveSeg.zip moveSeg.tail).map (fun p => distQ p.1.pt p.2.pt)).sum
  let directDist := distQ moveStart inp.target.pt
  let straightness := if 0 < pathLength then some (directDist / pathLength) else none
  let errorDist := distQ moveEnd inp.target.pt
  let errorDistNorm :=
    if 0 < inp.target.radius then some (errorDist / inp.target.radius) else none
  let t := moveSeg.map (fun s => s.tms / 1000)
  let xsl := moveSeg.map (fun s => s.x)
  let ysl := moveSeg.map (fun s => s.y)
  let vel := velTriple t xsl ysl
  let vx := vel.1
  let vy := vel.2.1
  let speed := vel.2.2
  let meanSpeed := if 0 < speed.length then some (speed.sum / (speed.length : ℚ)) else none
  let peakSpeed := listMax speed
  let speedVar :=
    match meanSpeed with
    | some m =>
      if 0 < speed.length then
        some ((speed.map (fun b => (b - m) ^ 2)).sum / (speed.length : ℚ))
      else none
    | none => none
  let accT := accTriple t vx vy
  let ax := accT.1
  let ay := accT.2.1
  let acc := accT.2.2
  let meanAccel := if 0 < acc.length then some (acc.sum / (acc.length : ℚ)) else none
  let peakAccel := listMax acc
  let jerk := jerkListOf t ax ay
  let jerkRMS :=
    if 0 < jerk.length then
      some (ratSqrt ((jerk.map (fun b => b ^ 2)).sum / (jerk.length : ℚ)))
    else none
  let smoothedSpeed := movingAverage speed 5
  let submovementCount : ℕ :=
    match peakSpeed.map (fun p => 0.15 * p) with
    | some th =>
      (List.range' 1 (smoothedSpeed.length - 2)).countP (fun i =>
        decide (smoothedSpeed.getD (i - 1) 0 < smoothedSpeed.getD i 0) &&
        decide (smoothedSpeed.getD (i + 1) 0 < smoothedSpeed.getD i 0) &&
        decide (th ≤ smoothedSpeed.getD i 0))
    | none => 0
  let d := moveSeg.map (fun s => distTo s inp.target)
  let gate := 4 * inp.target.radius
  let method1 :=
    (List.range' 2 (d.length - 2)).countP (fun i =>
      decide (d.getD (i - 1) 0 - d.getD (i - 2) 0 < -0.001) &&
      decide ((0.001 : ℚ) < d.getD i 0 - d.getD (i - 1) 0) &&
      decide (d.getD i 0 < gate))
  let finalPhaseOvershoots :=
    if 5 < moveSeg.length then
      let finalSeg := moveSeg.drop (7 * moveSeg.length / 10)
      let finalD := finalSeg.map (fun s => distTo s inp.target)
      (List.range' 2 (finalD.length - 2)).countP (fun i =>
        decide (finalD.getD (i - 1) 0 - finalD.getD (i - 2) 0 < -0.001) &&
        decide ((0.001 : ℚ) < finalD.getD i 0 - finalD.getD (i - 1) 0))
    else 0
  let oscillationCount :=
    if 4 < moveSeg.length then
      (List.range' 3 (moveSeg.length - 3)).countP (fun i =>
        decide (d.getD i 0 < gate) &&
        (stepReversal ((moveSeg.getD (i - 1) sample0).x - (moveSeg.getD (i - 2) sample0).x)
                      ((moveSeg.getD i sample0).x - (moveSeg.getD (i - 1) sample0).x) ||
         stepReversal ((moveSeg.getD (i - 1) sample0).y - (moveSeg.getD (i - 2) sample0).y)
                      ((moveSeg.getD i sample0).y - (moveSeg.getD (i - 1) sample0).y)))
    else 0
  let overshootCount := max (max method1 finalPhaseOvershoots) oscillationCount
  let fittsD := directDist
  let fittsW := 2 * inp.target.radius
  let fittsID := if 0 < fittsW then some (log2q (fittsD / fittsW + 1)) else none
  let mtSec : Option ℚ := some (max (movementTimeMs / 1000) 0.05)
  let throughput :=
    match fittsID, mtSec with
    | some i, some m => some (i / m)
    | _, _ => none
  { timing :=
      { reactionTimeMs := some reactionTimeMs
        movementTimeMs := some movementTimeMs
        interTapMs := inp.prevClickTms.map (fun p => inp.clickTms - p) }
    spatial :=
      { errorDistNorm := errorDistNorm
        pathLengthNorm := some pathLength
        directDistNorm := some directDist
        straightness := straightness }
    kinematics :=
      { meanSpeed := meanSpeed
        peakSpeed := peakSpeed
        speedVar := speedVar
        meanAccel := meanAccel
        peakAccel := peakAccel
        jerkRMS := jerkRMS
        submovementCount := some (Nat.cast submovementCount)
        overshootCount := some (Nat.cast overshootCount) }
    fitts :=
      { D := some fittsD
        W := some fittsW
        ID := fittsID
        throughput := throughput } }

/-- `extractAttemptFeatures` of `featureExtraction.js`. -/
def extractAttemptFeatures (inp : ExtractInput) : FeatureSet :=
  if (segOf inp).length < 4 then extractMinimal inp else extractFull inp

lemma extract_eq_minimal (inp : ExtractInput) (h : (segOf inp).length < 4) :
    extractAttemptFeatures inp = extractMinimal inp := by
  unfold extractAttemptFeatures
  exact if_pos h

lemma extract_eq_full (inp : ExtractInput) (h : ¬ (segOf inp).length < 4) :
    extractAttemptFeatures inp = extractFull inp := by
  unfold extractAttemptFeatures
  exact if_neg h

/-! ## The bucketed store -/

/-- `MAX_TRACE_SAMPLES_PER_BUCKET` of `MotorPointerTraceBucket.js`. -/
def MAX_TRACE_SAMPLES_PER_BUCKET : ℕ := 5000

/-- `MAX_ATTEMPTS_PER_BUCKET` of `MotorAttemptBucket.js`. -/
def MAX_ATTEMPTS_PER_BUCKET : ℕ := 2000

/-- One storage chunk ("bucket") of a session, generic in the payload
(pointer samples or enriched attempts — both JS schemas share the same
chunking logic).  The JS `count` field is maintained equal to the array
length after every push and is therefore modelled by `samples.length`;
the `firstTms`/`lastTms` bookkeeping of the trace bucket is never read
by retrieval and is omitted. -/
structure Bucket (α : Type) where
  bucketNumber : ℕ
  isFull : Bool
  samples : List α
deriving DecidableEq

/-- The append loop shared by `addSamples` and `addAttempts`: for each
incoming element, seal the active bucket and open the next one when the
active bucket has reached capacity, then push the element. -/
def addSamplesGo {α : Type} (cap : ℕ) : List α → List (Bucket α) → Bucket α → List (Bucket α)
  | [], sealed, b => sealed ++ [b]
  | s :: rest, sealed, b =>
    if cap ≤ b.samples.length then
      addSamplesGo cap rest (sealed ++ [{ b with isFull := true }])
        { bucketNumber := b.bucketNumber + 1, isFull := false, samples := [s] }
    else
      addSamplesGo cap rest sealed { b with samples := b.samples ++ [s] }

/-- `findOne({sessionId, isFull: false}).sort({bucketNumber: -1})` followed by
the create-if-missing step: under the store invariant that only the last
bucket of a session can be non-full, this splits the session's buckets into
the sealed ones and the active one (a fresh bucket 1 when the session has no
buckets, a fresh successor when the last one is full). -/
def activeBucket {α : Type} (bs : List (Bucket α)) : List (Bucket α) × Bucket α :=
  match bs.getLast? with
  | none => ([], { bucketNumber := 1, isFull := false, samples := [] })
  | some b =>
    if b.isFull then (bs, { bucketNumber := b.bucketNumber + 1, isFull := false, samples := [] })
    else (bs.dropLast, b)

/-- Retrieval: concatenate the chunks' payloads in stored (ascending
bucket-number) order — the `round = null` case of `getSessionSamples` /
`getSessionAttempts`. -/
def bucketsFlatten {α : Type} (bs : List (Bucket α)) : List α :=
  bs.foldr (fun b acc => b.samples ++ acc) []

/-- Session-level `addSamples`: the empty-array rejection and the bucket
append loop (the session-existence check lives in the store-level wrapper
below, and the capacity is the `MAX_*` constant there). -/
def addSamplesToSession {α : Type} (cap : ℕ) (existing : List (Bucket α)) (samplesArray : List α) :
    Except String (List (Bucket α)) :=
  if samplesArray.isEmpty then Except.error "samplesArray must be a non-empty array"
  else
    let sa := activeBucket existing
    Except.ok (addSamplesGo cap samplesArray sa.1 sa.2)

/-! ## Attempts and the enrichment pipeline -/

/-- The `click` sub-record of an attempt. -/
structure ClickInfo where
  clicked : Bool
  hit : Bool
  tms : ℚ
  x : ℚ
  y : ℚ
deriving DecidableEq

/-- An incoming (raw) attempt as submitted by the task client.
`timingReactionTimeMs` models the optional `attempt.timing?.reactionTimeMs`
and `spatialErrorDistNorm` the optional `attempt.spatial?.errorDistNorm`
read by `buildBasicFeatures`. -/
structure RawAttempt where
  round : ℕ
  attemptId : String
  spawnTms : ℚ
  target : Target
  click : ClickInfo
  timingReactionTimeMs : Option ℚ
  spatialErrorDistNorm : Option ℚ
deriving DecidableEq

/-- A stored attempt after enrichment (`{...attempt, ...features}`). -/
structure EnrichedAttempt where
  round : ℕ
  attemptId : String
  spawnTms : ℚ
  target : Target
  click : ClickInfo
  timing : Timing
  spatial : Spatial
  kinematics : Kinematics
  fitts : Fitts
deriving DecidableEq

/-- `buildBasicFeatures` of `MotorAttemptBucket.addAttempts`.  The JS
truthiness tests on `attempt.click?.tms`, `attempt.spawnTms` and
`prevClickTms` (a numeric `0` is falsy) are modelled by `≠ 0` checks. -/
def buildBasicFeatures (a : RawAttempt) (prevClickTms : Option ℚ) : FeatureSet :=
  let reactionTimeMs : Option ℚ :=
    match a.timingReactionTimeMs with
    | some v => some v
    | none =>
      if a.click.clicked && !(a.click.tms == 0) && !(a.spawnTms == 0) then
        some (a.click.tms - a.spawnTms)
      else none
  let interTapMs : Option ℚ :=
    match prevClickTms with
    | some p => if !(p == 0) && !(a.click.tms == 0) then some (a.click.tms - p) else none
    | none => none
  { timing := { reactionTimeMs := reactionTimeMs, movementTimeMs := none, interTapMs := interTapMs }
    spatial := { errorDistNorm := a.spatialErrorDistNorm, pathLengthNorm := none,
                 directDistNorm := none, straightness := none }
    kinematics := ⟨none, none, none, none, none, none, none, none⟩
    fitts := ⟨none, none, none, none⟩ }

/-- Enrichment of one attempt: run the extractor when pointer samples exist
and the bubble was clicked, otherwise fall back to the basic features.  (The
JS `try`/`catch` fallback branch is unreachable in the embedding because the
Lean extractor is a total function.) -/
def enrichOne (allSamples : List Sample) (a : RawAttempt) (prevClickTms : Option ℚ) :
    EnrichedAttempt :=
  let features :=
    if 0 < allSamples.length && a.click.clicked then
      extractAttemptFeatures
        { samples := allSamples, spawnTms := a.spawnTms, clickTms := a.click.tms,
          target := a.target, prevClickTms := prevClickTms }
    else buildBasicFeatures a prevClickTms
  { round := a.round, attemptId := a.attemptId, spawnTms := a.spawnTms,
    target := a.target, click := a.click,
    timing := features.timing, spatial := features.spatial,
    kinematics := features.kinematics, fitts := features.fitts }

/-! ## The store state and its operations -/

/-- The persistent state visible to the engine: the session registry plus the
per-session trace and attempt buckets (association lists keyed by session
identifier). -/
structure MotorStore where
  sessions : List String
  traceBuckets : List (String × List (Bucket Sample))
  attemptBuckets : List (String × List (Bucket EnrichedAttempt))
deriving DecidableEq

/-- Association-list lookup with `[]` default (a session with no documents). -/
def assocD {β : Type} (m : List (String × List β)) (k : String) : List β :=
  match m.find? (fun p => p.1 == k) with
  | some p => p.2
  | none => []

/-- Association-list update (replace or append). -/
def assocSet {β : Type} (m : List (String × List β)) (k : String) (v : List β) :
    List (String × List β) :=
  if m.any (fun p => p.1 == k) then m.map (fun p => if p.1 == k then (k, v) else p)
  else m ++ [(k, v)]

/-- `MotorPointerTraceBucket.getSessionSamples(sessionId)` with `round = null`
(the form used by the enrichment pipeline): flatten all buckets in ascending
bucket-number order. -/
def getAllSessionSamples (st : MotorStore) (sid : String) : List Sample :=
  bucketsFlatten (assocD st.traceBuckets sid)

/-- `MotorPointerTraceBucket.addSamples`: empty-array rejection, session
existence check, then the bucket append loop with capacity 5000. -/
def addSamples (st : MotorStore) (sid : String) (samplesArray : List Sample) :
    Except String MotorStore :=
  if samplesArray.isEmpty then Except.error "samplesArray must be a non-empty array"
  else if !(st.sessions.contains sid) then
    Except.error ("Session with sessionId " ++ sid ++ " does not exist.")
  else
    let existing := assocD st.traceBuckets sid
    let sa := activeBucket existing
    let newBuckets := addSamplesGo MAX_TRACE_SAMPLES_PER_BUCKET samplesArray sa.1 sa.2
    Except.ok { st with traceBuckets := assocSet st.traceBuckets sid newBuckets }

/-- `MotorAttemptBucket.addAttempts`: empty-array rejection, session existence
check, fetch of the session's pointer samples, per-attempt enrichment with the
previous attempt's click time, then the bucket append loop with capacity 2000.
Throws (returns `Except.error`) before touching the store when the session is
unknown. -/
def addAttempts (st : MotorStore) (sid : String) (attemptsArray : List RawAttempt) :
    Except String MotorStore :=
  if attemptsArray.isEmpty then Except.error "attemptsArray must be a non-empty array"
  else if !(st.sessions.contains sid) then
    Except.error ("Session with sessionId " ++ sid ++ " does not exist.")
  else
    let allSamples := getAllSessionSamples st sid
    let prevs : List (Option ℚ) := none :: attemptsArray.map (fun a => some a.click.tms)
    let enriched := (attemptsArray.zip prevs).map (fun p => enrichOne allSamples p.1 p.2)
    let existing := assocD st.attemptBuckets sid
    let sa := activeBucket existing
    let newBuckets := addSamplesGo MAX_ATTEMPTS_PER_BUCKET enriched sa.1 sa.2
    Except.ok { st with attemptBuckets := assocSet st.attemptBuckets sid newBuckets }

/-- `MotorAttemptBucket.getSessionAttempts(sessionId, round)`: flatten all the
session's buckets in ascending bucket-number order, filtering each bucket by
round when a round is given. -/
def getSessionAttempts (st : MotorStore) (sid : String) (round : Option ℕ) :
    List EnrichedAttempt :=
  (assocD st.attemptBuckets sid).foldl
    (fun acc b =>
      acc ++ (match round with
              | some r => b.samples.filter (fun a => a.round == r)
              | none => b.samples))
    []

/-! ## The `logAttempts` controller -/

/-- The request body of `POST /api/motor/attempts`.  `sessionId = none`
models an absent (or falsy) session id. -/
structure AttemptBatchBody where
  sessionId : Option String
  userId : Option String
  attempts : List RawAttempt
deriving DecidableEq

/-- The response the controller sends to the initiating caller (`400`, `404`,
`500` and the immediate success acknowledgment `{received, processing}`). -/
inductive MotorResponse where
  | badRequest (msg : String)
  | notFound (msg : String)
  | serverError (msg : String)
  | ok (received : ℕ)
deriving DecidableEq

/-- The synchronous part of `logAttempts`: validate the body, then respond
`success` immediately ("Send immediate response to reduce client-side
latency").  No session-existence check happens on this path; the `404` branch
of the controller is unreachable for the initiating call because the response
has already been sent when `addAttempts` runs. -/
def logAttemptsSync (b : AttemptBatchBody) : MotorResponse :=
  match b.sessionId with
  | none => MotorResponse.badRequest "Session ID and attempts array are required"
  | some _ =>
    if b.attempts.isEmpty then MotorResponse.badRequest "Session ID and attempts array are required"
    else MotorResponse.ok b.attempts.length

/-- The background part of `logAttempts` (`setImmediate` callback): run
`addAttempts`; on any error, log and drop the batch, leaving the store
unchanged.  The callback only runs when validation passed. -/
def logAttemptsBackground (st : MotorStore) (b : AttemptBatchBody) : MotorStore :=
  match b.sessionId with
  | none => st
  | some sid =>
    if b.attempts.isEmpty then st
    else
      match addAttempts st sid b.attempts with
      | Except.ok st2 => st2
      | Except.error _ => st

/-! ## The aggregator (`MotorSummary.js`) -/

/-- The local `mean` helper of `computeRoundFeatures`. -/
def meanQ (l : List ℚ) : Option ℚ :=
  if 0 < l.length then some (l.sum / (l.length : ℚ)) else none

/-- The local `std` helper: population standard deviation, `null` on fewer
than 2 values. -/
def stdQ (l : List ℚ) : Option ℚ :=
  if l.length < 2 then none
  else
    let m := l.sum / (l.length : ℚ)
    some (ratSqrt ((l.map (fun v => (v - m) ^ 2)).sum / (l.length : ℚ)))

/-- Insertion into a sorted list (ascending). -/
def insertSorted (v : ℚ) : List ℚ → List ℚ
  | [] => [v]
  | a :: rest => if v ≤ a then v :: a :: rest else a :: insertSorted v rest

/-- Ascending sort (models the JS `sort((a,b) => a-b)`; only sortedness and
the multiset of elements matter to `median`). -/
def sortQ (l : List ℚ) : List ℚ := l.foldr insertSorted []

/-- The local `median` helper: sort, average the two middle values on even
counts. -/
def medianQ (l : List ℚ) : Option ℚ :=
  if l.length = 0 then none
  else
    let sorted := sortQ l
    let mid := sorted.length / 2
    if sorted.length % 2 = 0 then some ((sorted.getD (mid - 1) 0 + sorted.getD mid 0) / 2)
    else some (sorted.getD mid 0)

/-- The record returned by `computeRoundFeatures` (feature aggregates plus the
raw counts). -/
structure RoundFeatures where
  reactionTime_mean : Option ℚ
  reactionTime_std : Option ℚ
  reactionTime_median : Option ℚ
  movementTime_mean : Option ℚ
  movementTime_std : Option ℚ
  movementTime_median : Option ℚ
  interTapTime_mean : Option ℚ
  interTapTime_std : Option ℚ
  errorDist_mean : Option ℚ
  errorDist_std : Option ℚ
  pathLength_mean : Option ℚ
  straightness_mean : Option ℚ
  straightness_std : Option ℚ
  meanSpeed_mean : Option ℚ
  peakSpeed_mean : Option ℚ
  jerkRMS_mean : Option ℚ
  jerkRMS_std : Option ℚ
  submovementCount_mean : Option ℚ
  submovementCount_std : Option ℚ
  overshootCount_mean : Option ℚ
  overshootCount_std : Option ℚ
  throughput_mean : Option ℚ
  throughput_std : Option ℚ
  ID_mean : Option ℚ
  nAttempts : ℕ
  nHits : ℕ
  nMisses : ℕ
  hitRate : ℚ
deriving DecidableEq

/-- The pure core of `computeRoundFeatures`, as a function of the round's
loaded attempts: `null` when no attempts exist, otherwise the aggregates over
the subsets the code actually uses (note: `movementTimes` is taken from
`hits`, not from all attempts). -/
def roundFeaturesOf (attempts : List EnrichedAttempt) : Option RoundFeatures :=
  if attempts.length = 0 then none
  else
    let hits := attempts.filter (fun a => a.click.hit)
    let misses := attempts.filter (fun a => !a.click.hit)
    let reactionTimes := (attempts.map (fun a => a.timing.reactionTimeMs)).filterMap id
    let movementTimes := (hits.map (fun a => a.timing.movementTimeMs)).filterMap id
    let interTapTimes := (attempts.map (fun a => a.timing.interTapMs)).filterMap id
    let errorDists := (hits.map (fun a => a.spatial.errorDistNorm)).filterMap id
    let pathLengths := (hits.map (fun a => a.spatial.pathLengthNorm)).filterMap id
    let straightnessVals := (hits.map (fun a => a.spatial.straightness)).filterMap id
    let meanSpeeds := (hits.map (fun a => a.kinematics.meanSpeed)).filterMap id
    let peakSpeeds := (hits.map (fun a => a.kinematics.peakSpeed)).filterMap id
    let jerkRMSVals := (hits.map (fun a => a.kinematics.jerkRMS)).filterMap id
    let submovements := (hits.map (fun a => a.kinematics.submovementCount)).filterMap id
    let overshoots := (hits.map (fun a => a.kinematics.overshootCount)).filterMap id
    let throughputs := (hits.map (fun a => a.fitts.throughput)).filterMap id
    let IDs := (hits.map (fun a => a.fitts.ID)).filterMap id
    some
      { reactionTime_mean := meanQ reactionTimes
        reactionTime_std := stdQ reactionTimes
        reactionTime_median := medianQ reactionTimes
        movementTime_mean := meanQ movementTimes
        movementTime_std := stdQ movementTimes
        movementTime_median := medianQ movementTimes
        interTapTime_mean := meanQ interTapTimes
        interTapTime_std := stdQ interTapTimes
        errorDist_mean := meanQ errorDists
        errorDist_std := stdQ errorDists
        pathLength_mean := meanQ pathLengths
        straightness_mean := meanQ straightnessVals
        straightness_std := stdQ straightnessVals
        meanSpeed_mean := meanQ meanSpeeds
        peakSpeed_mean := meanQ peakSpeeds
        jerkRMS_mean := meanQ jerkRMSVals
        jerkRMS_std := stdQ jerkRMSVals
        submovementCount_mean := meanQ submovements
        submovementCount_std := stdQ submovements
        overshootCount_mean := meanQ overshoots
        overshootCount_std := stdQ overshoots
        throughput_mean := meanQ throughputs
        throughput_std := stdQ throughputs
        ID_mean := meanQ IDs
        nAttempts := attempts.length
        nHits := hits.length
        nMisses := misses.length
        hitRate := if 0 < attempts.length then (hits.length : ℚ) / (attempts.length : ℚ) else 0 }

/-- `computeRoundFeatures(sessionId, round)`: load the round's enriched
attempts from the store and aggregate them. -/
def computeRoundFeatures (st : MotorStore) (sid : String) (round : ℕ) : Option RoundFeatures :=
  roundFeaturesOf (getSessionAttempts st sid (some round))

/-- The session-level feature map.  The JS code flattens each present round's
features into string-prefixed keys `r{n}_*`; the embedding keeps the three
optional per-round records (`rn = none` exactly when no `r{n}_*` keys are
emitted) plus the two trend fields. -/
structure SessionFeatures where
  r1 : Option RoundFeatures
  r2 : Option RoundFeatures
  r3 : Option RoundFeatures
  hitRate_trend : Option ℚ
  throughput_trend : Option ℚ
deriving DecidableEq

/-- `computeSessionFeatures(sessionId)`: per-round features for rounds 1-3,
plus the two trend features computed from the chronologically available
(non-null) round values (`vals[vals.length - 1] - vals[0]` when more than one
value survives the null filter). -/
def computeSessionFeatures (st : MotorStore) (sid : String) : SessionFeatures :=
  let f1 := computeRoundFeatures st sid 1
  let f2 := computeRoundFeatures st sid 2
  let f3 := computeRoundFeatures st sid 3
  let hitRates := ([f1.map (fun r => r.hitRate), f2.map (fun r => r.hitRate),
                    f3.map (fun r => r.hitRate)]).filterMap id
  let throughputs := ([f1.bind (fun r => r.throughput_mean), f2.bind (fun r => r.throughput_mean),
                       f3.bind (fun r => r.throughput_mean)]).filterMap id
  { r1 := f1
    r2 := f2
    r3 := f3
    hitRate_trend :=
      if 1 < hitRates.length then some (hitRates.getLastD 0 - hitRates.headD 0) else none
    throughput_trend :=
      if 1 < throughputs.length then some (throughputs.getLastD 0 - throughputs.headD 0) else none }

/-! ## Chunking lemmas (for claim C6) -/

/-- Number of buckets produced by the append loop from a state with `j`
elements in the active bucket and `n` elements still to insert. -/
def chunkCount (cap n j : ℕ) : ℕ := max 1 ((n + j + cap - 1) / cap)

lemma bucketsFlatten_cons {α : Type} (b : Bucket α) (t : List (Bucket α)) :
    bucketsFlatten (b :: t) = b.samples ++ bucketsFlatten t := rfl

lemma bucketsFlatten_append {α : Type} (l1 l2 : List (Bucket α)) :
    bucketsFlatten (l1 ++ l2) = bucketsFlatten l1 ++ bucketsFlatten l2 := by
  induction l1 with
  | nil => simp [bucketsFlatten]
  | cons b t ih => simp [bucketsFlatten_cons, ih]

lemma addSamplesGo_flatten {α : Type} (cap : ℕ) :
    ∀ (l : List α) (sealed : List (Bucket α)) (b : Bucket α),
      bucketsFlatten (addSamplesGo cap l sealed b) = bucketsFlatten sealed ++ b.samples ++ l := by
  intro l
  induction l with
  | nil =>
    intro sealed b
    rw [addSamplesGo, bucketsFlatten_append]
    simp [bucketsFlatten_cons, bucketsFlatten]
  | cons s rest ih =>
    intro sealed b
    by_cases hfull : cap ≤ b.samples.length
    · rw [addSamplesGo, if_pos hfull, ih, bucketsFlatten_append]
      simp [bucketsFlatten_cons, bucketsFlatten]
    · rw [addSamplesGo, if_neg hfull, ih]
      simp

lemma chunkCount_zero (cap j : ℕ) (hcap : 0 < cap) (hj : j ≤ cap) :
    chunkCount cap 0 j = 1 := by
  unfold chunkCount
  have hlt : (0 + j + cap - 1) / cap < 2 := by
    rw [Nat.div_lt_iff_lt_mul hcap]
    omega
  rw [Nat.max_eq_left (Nat.lt_succ_iff.mp hlt)]

lemma chunkCount_succ_full (cap n : ℕ) (hcap : 0 < cap) :
    chunkCount cap (n + 1) cap = chunkCount cap n 1 + 1 := by
  unfold chunkCount
  have e1 : n + 1 + cap + cap - 1 = n + cap + cap := by omega
  have e2 : n + 1 + cap - 1 = n + cap := by omega
  rw [e1, e2, Nat.add_div_right _ hcap, Nat.add_div_right _ hcap,
      Nat.max_eq_right (Nat.le_add_left 1 (n / cap + 1)),
      Nat.max_eq_right (Nat.le_add_left 1 (n / cap))]

lemma chunkCount_succ_push (cap n j : ℕ) :
    chunkCount cap (n + 1) j = chunkCount cap n (j + 1) := by
  unfold chunkCount
  have e : n + 1 + j + cap - 1 = n + (j + 1) + cap - 1 := by omega
  rw [e]

lemma addSamplesGo_numbers {α : Type} (cap : ℕ) (hcap : 0 < cap) :
    ∀ (l : List α) (sealed : List (Bucket α)) (b : Bucket α), b.samples.length ≤ cap →
      (addSamplesGo cap l sealed b).map (fun c => c.bucketNumber) =
        sealed.map (fun c => c.bucketNumber) ++
          List.range' b.bucketNumber (chunkCount cap l.length b.samples.length) := by
  intro l
  induction l with
  | nil =>
    intro sealed b hb
    rw [addSamplesGo]
    simp [chunkCount_zero cap b.samples.length hcap hb, List.range']
  | cons s rest ih =>
    intro sealed b hb
    by_cases hfull : cap ≤ b.samples.length
    · have hlen : b.samples.length = cap := le_antisymm hb hfull
      have hrec := ih (sealed ++ [{ b with isFull := true }])
        { bucketNumber := b.bucketNumber + 1, isFull := false, samples := [s] }
        (by simpa using hcap)
      rw [addSamplesGo, if_pos hfull, hrec]
      simp only [List.length_cons, hlen, List.map_append, List.map_cons, List.map_nil]
      rw [chunkCount_succ_full cap rest.length hcap, List.range'_succ]
      simp
    · have hrec := ih sealed { b with samples := b.samples ++ [s] } (by simp; omega)
      rw [addSamplesGo, if_neg hfull, hrec]
      simp only [List.length_cons, List.length_append, List.length_nil]
      rw [chunkCount_succ_push]

lemma addSamplesGo_sizes {α : Type} (cap : ℕ) (hcap : 0 < cap) :
    ∀ (l : List α) (sealed : List (Bucket α)) (b : Bucket α),
      (∀ c ∈ sealed, c.samples.length ≤ cap) → b.samples.length ≤ cap →
      ∀ c ∈ addSamplesGo cap l sealed b, c.samples.length ≤ cap := by
  intro l
  induction l with
  | nil =>
    intro sealed b hs hb c hc
    rw [addSamplesGo] at hc
    rcases List.mem_append.mp hc with h | h
    · exact hs c h
    · simp at h; subst h; exact hb
  | cons s rest ih =>
    intro sealed b hs hb c hc
    by_cases hfull : cap ≤ b.samples.length
    · rw [addSamplesGo, if_pos hfull] at hc
      refine ih _ _ ?_ (by simpa using hcap) c hc
      intro c' hc'
      rcases List.mem_append.mp hc' with h | h
      · exact hs c' h
      · simp at h; subst h; exact hb
    · rw [addSamplesGo, if_neg hfull] at hc
      refine ih _ _ hs (by simp; omega) c hc

/-! ## Claim C6 -/

/-- Claim C6: appending `N ≥ 1` samples for a session with no existing chunks,
with chunk capacity `C > 0`, produces exactly `ceil(N/C)` chunks, each holding
at most `C` samples, numbered ascendingly from 1, and retrieval (concatenating
the chunks in ascending chunk number) returns the samples in exactly the order
they were submitted. -/
theorem claim6_chunking {α : Type} (cap : ℕ) (l : List α) (hcap : 0 < cap) (hl : l ≠ []) :
    ∀ bs, addSamplesToSession cap [] l = Except.ok bs →
      bs.length = (l.length + cap - 1) / cap ∧
      (∀ b ∈ bs, b.samples.length ≤ cap) ∧
      bucketsFlatten bs = l ∧
      bs.map (fun b => b.bucketNumber) = List.range' 1 ((l.length + cap - 1) / cap) := by
  intro bs hbs
  have hne : l.isEmpty = false := by
    cases l with
    | nil => exact absurd rfl hl
    | cons a t => rfl
  unfold addSamplesToSession at hbs
  rw [hne] at hbs
  simp only [Bool.false_eq_true, if_false, activeBucket, List.getLast?_nil] at hbs
  have hbs2 : bs = addSamplesGo cap l [] { bucketNumber := 1, isFull := false, samples := [] } :=
    (Except.ok.inj hbs).symm
  subst hbs2
  have hcount : chunkCount cap l.length 0 = (l.length + cap - 1) / cap := by
    unfold chunkCount
    have hlen : 1 ≤ l.length := by
      cases l with
      | nil => exact absurd rfl hl
      | cons a t => simp
    have h1 : 1 ≤ (l.length + 0 + cap - 1) / cap := by
      rw [Nat.le_div_iff_mul_le hcap]
      omega
    rw [Nat.max_eq_right h1]
    norm_num
  have hnum := addSamplesGo_numbers cap hcap l []
    { bucketNumber := 1, isFull := false, samples := [] } (by simp)
  simp only [List.map_nil, List.nil_append, List.length_nil] at hnum
  refine ⟨?_, ?_, ?_, ?_⟩
  · have := congrArg List.length hnum
    simpa [hcount] using this
  · exact addSamplesGo_sizes cap hcap l [] _ (by intro c hc; simp at hc) (by simp)
  · have := addSamplesGo_flatten cap l []
      { bucketNumber := 1, isFull := false, samples := [] }
    simpa [bucketsFlatten] using this
  · rw [hnum, hcount]

/-- Decidable equality on `Except`, needed to evaluate store operations at
concrete witness inputs. -/
instance {ε α : Type} [DecidableEq ε] [DecidableEq α] : DecidableEq (Except ε α) := fun a b =>
  match a, b with
  | Except.ok x, Except.ok y =>
    if h : x = y then Decidable.isTrue (by rw [h]) else Decidable.isFalse (by
      intro he
      exact h (Except.ok.inj he))
  | Except.error x, Except.error y =>
    if h : x = y then Decidable.isTrue (by rw [h]) else Decidable.isFalse (by
      intro he
      exact h (Except.error.inj he))
  | Except.ok x, Except.error y => Decidable.isFalse (by intro he; cases he)
  | Except.error x, Except.ok y => Decidable.isFalse (by intro he; cases he)

/-- The submitted samples of the C6 witness (capacity 2, five samples). -/
def claim6list : List ℕ := [10, 20, 30, 40, 50]

/-- The chunks the C6 witness produces: `ceil(5/2) = 3` buckets. -/
def claim6buckets : List (Bucket ℕ) :=
  [⟨1, true, [10, 20]⟩, ⟨2, true, [30, 40]⟩, ⟨3, false, [50]⟩]

/-- Witness for claim C6 at capacity 2 with 5 samples. -/
theorem claim6_witness :
    (0 : ℕ) < 2 ∧ claim6list ≠ [] ∧
    claim6buckets.length = (claim6list.length + 2 - 1) / 2 ∧
    bucketsFlatten claim6buckets = claim6list ∧
    claim6buckets.map (fun b => b.bucketNumber) = List.range' 1 ((claim6list.length + 2 - 1) / 2) :=
  have h := claim6_chunking 2 claim6list (by decide) (by decide!) claim6buckets (by decide!)
  ⟨by decide, by decide!, h.1, h.2.2.1, h.2.2.2⟩

/-! ## Claim C1 -/

/-- A raw attempt used in the C1 store examples. -/
def rawA : RawAttempt :=
  { round := 1, attemptId := "a1", spawnTms := 0, target := ⟨0.5, 0.5, 0.1⟩,
    click := { clicked := true, hit := true, tms := 100, x := 0.5, y := 0.5 },
    timingReactionTimeMs := none, spatialErrorDistNorm := none }

/-- A store whose session registry does not contain `"ghost-session"`. -/
def claim1store : MotorStore :=
  { sessions := ["existing-session"], traceBuckets := [], attemptBuckets := [] }

/-- The C1 request body: a valid batch referencing the unknown session. -/
def claim1body : AttemptBatchBody :=
  { sessionId := some "ghost-session", userId := none, attempts := [rawA] }

/-- Claim C1 counterexample: for a well-formed batch referencing a session id
absent from the registry, the synchronous response of `logAttempts` is the
success acknowledgment `ok 1` — not an unknown-session rejection.  (The
session-existence check runs only inside the background task; the 404 branch
of the controller is unreachable because the response has already been sent.) -/
theorem claim1_counterexample :
    claim1store.sessions.contains "ghost-session" = false ∧
    logAttemptsSync claim1body = MotorResponse.ok 1 := by
  exact ⟨by decide!, by decide!⟩

/-- Claim C1 (amended): a valid attempt batch for an unknown session is
acknowledged synchronously with success; the unknown-session error is raised
only inside the background task, which logs and drops the batch, so no attempt
records are written to the store (the store is unchanged — no partial writes). -/
theorem claim1_unknown_session (st : MotorStore) (sid : String) (uid : Option String)
    (attempts : List RawAttempt) (hne : attempts ≠ [])
    (hs : st.sessions.contains sid = false) :
    logAttemptsSync { sessionId := some sid, userId := uid, attempts := attempts } =
      MotorResponse.ok attempts.length ∧
    logAttemptsBackground st { sessionId := some sid, userId := uid, attempts := attempts } = st := by
  have hne2 : attempts.isEmpty = false := by
    cases attempts with
    | nil => exact absurd rfl hne
    | cons a t => rfl
  constructor
  · unfold logAttemptsSync
    rw [hne2]
    simp
  · unfold logAttemptsBackground
    rw [hne2]
    simp only [Bool.false_eq_true, if_false]
    unfold addAttempts
    rw [hne2, hs]
    simp

/-- Witness for the amended claim C1 at the concrete unknown-session input. -/
theorem claim1_witness :
    [rawA] ≠ [] ∧ claim1store.sessions.contains "ghost-session" = false ∧
    (logAttemptsSync { sessionId := some "ghost-session", userId := none, attempts := [rawA] } =
       MotorResponse.ok ([rawA]).length ∧
     logAttemptsBackground claim1store
       { sessionId := some "ghost-session", userId := none, attempts := [rawA] } = claim1store) :=
  ⟨by decide!, by decide!,
   claim1_unknown_session claim1store "ghost-session" none [rawA] (by decide!) (by decide!)⟩

/-! ## Claim C3 -/

/-- Claim C3: whenever fewer than 4 samples fall in `[spawnTms, clickTms]`,
the extractor returns the minimal result: `reactionTimeMs = click - spawn`,
`interTapMs = click - prevClick` when a previous click time is given (`none`
otherwise), and every spatial, kinematic, and Fitts field `none`. -/
theorem claim3_minimal_result (inp : ExtractInput) (h : (segOf inp).length < 4) :
    extractAttemptFeatures inp =
      { timing :=
          { reactionTimeMs := some (inp.clickTms - inp.spawnTms)
            movementTimeMs := none
            interTapMs := inp.prevClickTms.map (fun p => inp.clickTms - p) }
        spatial := ⟨none, none, none, none⟩
        kinematics := ⟨none, none, none, none, none, none, none, none⟩
        fitts := ⟨none, none, none, none⟩ } :=
  (extract_eq_minimal inp h).trans rfl

/-- The C3 witness input: two samples only (one inside the window). -/
def claim3inp : ExtractInput :=
  { samples := [⟨1, 50, 0.1, 0.2⟩, ⟨1, 200, 0.3, 0.4⟩]
    spawnTms := 5
    clickTms := 100
    target := ⟨0.5, 0.5, 0.1⟩
    prevClickTms := some 40 }

/-- Witness for claim C3: at `claim3inp` the minimal result has
`reactionTimeMs = 95` and `interTapMs = 60`. -/
theorem claim3_witness :
    (segOf claim3inp).length < 4 ∧
    extractAttemptFeatures claim3inp =
      { timing := { reactionTimeMs := some 95, movementTimeMs := none, interTapMs := some 60 }
        spatial := ⟨none, none, none, none⟩
        kinematics := ⟨none, none, none, none, none, none, none, none⟩
        fitts := ⟨none, none, none, none⟩ } :=
  ⟨by decide!, (claim3_minimal_result claim3inp (by decide!)).trans (by decide!)⟩

/-! ## Claim C2 -/

/-- A minimal enriched attempt used to build aggregator test stores. -/
def plainEA (round : ℕ) (hit : Bool) : EnrichedAttempt :=
  { round := round, attemptId := "t", spawnTms := 0, target := ⟨0, 0, 0⟩,
    click := { clicked := true, hit := hit, tms := 0, x := 0, y := 0 },
    timing := ⟨none, none, none⟩, spatial := ⟨none, none, none, none⟩,
    kinematics := ⟨none, none, none, none, none, none, none, none⟩,
    fitts := ⟨none, none, none, none⟩ }

/-- The values of a feature over all attempts of a round (JS
`attempts.map(f).filter(v => v != null)`). -/
def allVals (attempts : List EnrichedAttempt) (f : EnrichedAttempt → Option ℚ) : List ℚ :=
  (attempts.map f).filterMap id

/-- The values of a feature over the hit attempts only (JS
`hits.map(f).filter(v => v != null)`). -/
def hitVals (attempts : List EnrichedAttempt) (f : EnrichedAttempt → Option ℚ) : List ℚ :=
  ((attempts.filter (fun a => a.click.hit)).map f).filterMap id

/-- A store holding one round-1 MISS attempt with a recorded movement time. -/
def claim2store : MotorStore :=
  { sessions := ["s"], traceBuckets := [],
    attemptBuckets :=
      [("s", [⟨1, false, [{ plainEA 1 false with timing := ⟨none, some 100, none⟩ }]⟩])] }

/-- Claim C2 counterexample: the round has one miss attempt with
`movementTimeMs = 100`.  If movement time (a timing feature) were aggregated
over ALL attempts as the claim states, `movementTime_mean` would be `100`;
the code aggregates it over the hits only, so it is `none`. -/
theorem claim2_counterexample :
    ((computeRoundFeatures claim2store "s" 1).map (fun r => r.movementTime_mean)) = some none ∧
    meanQ (allVals (getSessionAttempts claim2store "s" (some 1))
      (fun a => a.timing.movementTimeMs)) = some 100 := by
  exact ⟨by decide!, by decide!⟩

/-- Claim C2 (amended): in the round aggregation, reaction time and the
inter-tap interval are computed over all attempts of the round, while
movement time and every spatial, kinematic, and Fitts feature are computed
over the hit attempts (`click.hit = true`) only. -/
theorem claim2_subsets (st : MotorStore) (sid : String) (round : ℕ)
    (h : getSessionAttempts st sid (some round) ≠ []) :
    ((computeRoundFeatures st sid round).map (fun r => r.reactionTime_mean) =
       some (meanQ (allVals (getSessionAttempts st sid (some round)) (fun a => a.timing.reactionTimeMs)))) ∧
    ((computeRoundFeatures st sid round).map (fun r => r.reactionTime_std) =
       some (stdQ (allVals (getSessionAttempts st sid (some round)) (fun a => a.timing.reactionTimeMs)))) ∧
    ((computeRoundFeatures st sid round).map (fun r => r.reactionTime_median) =
       some (medianQ (allVals (getSessionAttempts st sid (some round)) (fun a => a.timing.reactionTimeMs)))) ∧
    ((computeRoundFeatures st sid round).map (fun r => r.movementTime_mean) =
       some (meanQ (hitVals (getSessionAttempts st sid (some round)) (fun a => a.timing.movementTimeMs)))) ∧
    ((computeRoundFeatures st sid round).map (fun r => r.movementTime_std) =
       some (stdQ (hitVals (getSessionAttempts st sid (some round)) (fun a => a.timing.movementTimeMs)))) ∧
    ((computeRoundFeatures st sid round).map (fun r => r.movementTime_median) =
       some (medianQ (hitVals (getSessionAttempts st sid (some round)) (fun a => a.timing.movementTimeMs)))) ∧
    ((computeRoundFeatures st sid round).map (fun r => r.interTapTime_mean) =
       some (meanQ (allVals (getSessionAttempts st sid (some round)) (fun a => a.timing.interTapMs)))) ∧
    ((computeRoundFeatures st sid round).map (fun r => r.interTapTime_std) =
       some (stdQ (allVals (getSessionAttempts st sid (some round)) (fun a => a.timing.interTapMs)))) ∧
    ((computeRoundFeatures st sid round).map (fun r => r.errorDist_mean) =
       some (meanQ (hitVals (getSessionAttempts st sid (some round)) (fun a => a.spatial.errorDistNorm)))) ∧
    ((computeRoundFeatures st sid round).map (fun r => r.errorDist_std) =
       some (stdQ (hitVals (getSessionAttempts st sid (some round)) (fun a => a.spatial.errorDistNorm)))) ∧
    ((computeRoundFeatures st sid round).map (fun r => r.pathLength_mean) =
       some (meanQ (hitVals (getSessionAttempts st sid (some round)) (fun a => a.spatial.pathLengthNorm)))) ∧
    ((computeRoundFeatures st sid round).map (fun r => r.straightness_mean) =
       some (meanQ (hitVals (getSessionAttempts st sid (some round)) (fun a => a.spatial.straightness)))) ∧
    ((computeRoundFeatures st sid round).map (fun r => r.straightness_std) =
       some (stdQ (hitVals (getSessionAttempts st sid (some round)) (fun a => a.spatial.straightness)))) ∧
    ((computeRoundFeatures st sid round).map (fun r => r.meanSpeed_mean) =
       some (meanQ (hitVals (getSessionAttempts st sid (some round)) (fun a => a.kinematics.meanSpeed)))) ∧
    ((computeRoundFeatures st sid round).map (fun r => r.peakSpeed_mean) =
       some (meanQ (hitVals (getSessionAttempts st sid (some round)) (fun a => a.kinematics.peakSpeed)))) ∧
    ((computeRoundFeatures st sid round).map (fun r => r.jerkRMS_mean) =
       some (meanQ (hitVals (getSessionAttempts st sid (some round)) (fun a => a.kinematics.jerkRMS)))) ∧
    ((computeRoundFeatures st sid round).map (fun r => r.jerkRMS_std) =
       some (stdQ (hitVals (getSessionAttempts st sid (some round)) (fun a => a.kinematics.jerkRMS)))) ∧
    ((computeRoundFeatures st sid round).map (fun r => r.submovementCount_mean) =
       some (meanQ (hitVals (getSessionAttempts st sid (some round)) (fun a => a.kinematics.submovementCount)))) ∧
    ((computeRoundFeatures st sid round).map (fun r => r.submovementCount_std) =
       some (stdQ (hitVals (getSessionAttempts st sid (some round)) (fun a => a.kinematics.submovementCount)))) ∧
    ((computeRoundFeatures st sid round).map (fun r => r.overshootCount_mean) =
       some (meanQ (hitVals (getSessionAttempts st sid (some round)) (fun a => a.kinematics.overshootCount)))) ∧
    ((computeRoundFeatures st sid round).map (fun r => r.overshootCount_std) =
       some (stdQ (hitVals (getSessionAttempts st sid (some round)) (fun a => a.kinematics.overshootCount)))) ∧
    ((computeRoundFeatures st sid round).map (fun r => r.throughput_mean) =
       some (meanQ (hitVals (getSessionAttempts st sid (some round)) (fun a => a.fitts.throughput)))) ∧
    ((computeRoundFeatures st sid round).map (fun r => r.throughput_std) =
       some (stdQ (hitVals (getSessionAttempts st sid (some round)) (fun a => a.fitts.throughput)))) ∧
    ((computeRoundFeatures st sid round).map (fun r => r.ID_mean) =
       some (meanQ (hitVals (getSessionAttempts st sid (some round)) (fun a => a.fitts.ID)))) := by
  have hne0 : ¬ ((getSessionAttempts st sid (some round)).length = 0) := by
    simpa [List.length_eq_zero] using h
  unfold computeRoundFeatures roundFeaturesOf
  rw [if_neg hne0]
  exact ⟨rfl, rfl, rfl, rfl, rfl, rfl, rfl, rfl, rfl, rfl, rfl, rfl, rfl, rfl, rfl, rfl, rfl,
    rfl, rfl, rfl, rfl, rfl, rfl, rfl⟩

/-- Witness for the amended claim C2: at `claim2store` the reaction-time mean
ranges over all attempts and the movement-time mean over the hits only. -/
theorem claim2_witness :
    getSessionAttempts claim2store "s" (some 1) ≠ [] ∧
    ((computeRoundFeatures claim2store "s" 1).map (fun r => r.reactionTime_mean) =
       some (meanQ (allVals (getSessionAttempts claim2store "s" (some 1))
         (fun a => a.timing.reactionTimeMs)))) ∧
    ((computeRoundFeatures claim2store "s" 1).map (fun r => r.movementTime_mean) =
       some (meanQ (hitVals (getSessionAttempts claim2store "s" (some 1))
         (fun a => a.timing.movementTimeMs)))) :=
  have h := claim2_subsets claim2store "s" 1 (by decide!)
  ⟨by decide!, h.1, h.2.2.2.1⟩

/-! ## Claim C8 -/

/-- Splitting a list by a predicate partitions its length. -/
lemma filterLengthSplit {α : Type} (l : List α) (p : α → Bool) :
    (l.filter p).length + (l.filter (fun a => !(p a))).length = l.length := by
  induction l with
  | nil => rfl
  | cons a t ih =>
    cases hpa : p a <;> simp [List.filter, hpa, ← ih] <;> omega

/-- Claim C8: `roundFeatures(sessionId, round)` returns `null` exactly when
the round has zero enriched attempts; otherwise the counts satisfy
`nAttempts = nHits + nMisses` and `hitRate = nHits / nAttempts`. -/
theorem claim8_round_counts (st : MotorStore) (sid : String) (round : ℕ) :
    (computeRoundFeatures st sid round = none ↔ getSessionAttempts st sid (some round) = []) ∧
    (∀ r, computeRoundFeatures st sid round = some r →
      r.nAttempts = r.nHits + r.nMisses ∧ r.hitRate = (r.nHits : ℚ) / (r.nAttempts : ℚ)) := by
  constructor
  · unfold computeRoundFeatures roundFeaturesOf
    by_cases hz : (getSessionAttempts st sid (some round)).length = 0
    · rw [if_pos hz]
      simp [List.length_eq_zero.mp hz]
    · rw [if_neg hz]
      simp only [List.length_eq_zero] at hz
      simp [hz]
  · intro r hr
    unfold computeRoundFeatures roundFeaturesOf at hr
    by_cases hz : (getSessionAttempts st sid (some round)).length = 0
    · rw [if_pos hz] at hr
      cases hr
    · rw [if_neg hz] at hr
      have hre := (Option.some.inj hr).symm
      subst hre
      have hpos : 0 < (getSessionAttempts st sid (some round)).length := Nat.pos_of_ne_zero hz
      refine ⟨?_, ?_⟩
      · simpa using (filterLengthSplit (getSessionAttempts st sid (some round))
          (fun a => a.click.hit)).symm
      · simp [if_pos hpos]

/-- Scenario-B store: 10 round-1 attempts, 6 hits and 4 misses. -/
def claim8store : MotorStore :=
  { sessions := ["s"], traceBuckets := [],
    attemptBuckets :=
      [("s", [⟨1, false, List.replicate 6 (plainEA 1 true) ++ List.replicate 4 (plainEA 1 false)⟩])] }

/-- The round features of the scenario-B store (every aggregate list is empty,
so all aggregates are `none`; the counts are 10/6/4 with hit rate 0.6). -/
def claim8rf : RoundFeatures :=
  { reactionTime_mean := none, reactionTime_std := none, reactionTime_median := none,
    movementTime_mean := none, movementTime_std := none, movementTime_median := none,
    interTapTime_mean := none, interTapTime_std := none,
    errorDist_mean := none, errorDist_std := none, pathLength_mean := none,
    straightness_mean := none, straightness_std := none,
    meanSpeed_mean := none, peakSpeed_mean := none, jerkRMS_mean := none, jerkRMS_std := none,
    submovementCount_mean := none, submovementCount_std := none,
    overshootCount_mean := none, overshootCount_std := none,
    throughput_mean := none, throughput_std := none, ID_mean := none,
    nAttempts := 10, nHits := 6, nMisses := 4, hitRate := 3/5 }

/-- Witness for claim C8 (scenario B): 10 attempts with 6 hits and 4 misses
yield counts `10 = 6 + 4` and hit rate `6/10 = 0.6`. -/
theorem claim8_witness :
    computeRoundFeatures claim8store "s" 1 = some claim8rf ∧
    (claim8rf.nAttempts = claim8rf.nHits + claim8rf.nMisses ∧
     claim8rf.hitRate = (claim8rf.nHits : ℚ) / (claim8rf.nAttempts : ℚ)) ∧
    (claim8rf.nAttempts, claim8rf.nHits, claim8rf.nMisses, claim8rf.hitRate) = (10, 6, 4, 0.6) :=
  ⟨by decide!, (claim8_round_counts claim8store "s" 1).2 claim8rf (by decide!), by decide!⟩

/-! ## Claim C7 -/

/-- Claim C7: the session summary carries a trend feature exactly when at
least two rounds have a non-null value of the underlying feature (hit rate,
mean throughput), in which case the trend is the chronologically last
available value minus the first available one; and the per-round feature
block is absent (`none` — no `r{n}_*` keys) for every round with no attempts. -/
theorem claim7_trends (st : MotorStore) (sid : String) :
    ((computeSessionFeatures st sid).hitRate_trend =
      (let hrs := ([(computeRoundFeatures st sid 1).map (fun r => r.hitRate),
                    (computeRoundFeatures st sid 2).map (fun r => r.hitRate),
                    (computeRoundFeatures st sid 3).map (fun r => r.hitRate)]).filterMap id
       if 1 < hrs.length then some (hrs.getLastD 0 - hrs.headD 0) else none)) ∧
    ((computeSessionFeatures st sid).throughput_trend =
      (let tps := ([(computeRoundFeatures st sid 1).bind (fun r => r.throughput_mean),
                    (computeRoundFeatures st sid 2).bind (fun r => r.throughput_mean),
                    (computeRoundFeatures st sid 3).bind (fun r => r.throughput_mean)]).filterMap id
       if 1 < tps.length then some (tps.getLastD 0 - tps.headD 0) else none)) ∧
    (getSessionAttempts st sid (some 1) = [] → (computeSessionFeatures st sid).r1 = none) ∧
    (getSessionAttempts st sid (some 2) = [] → (computeSessionFeatures st sid).r2 = none) ∧
    (getSessionAttempts st sid (some 3) = [] → (computeSessionFeatures st sid).r3 = none) := by
  refine ⟨rfl, rfl, ?_, ?_, ?_⟩ <;>
    · intro hemp
      show roundFeaturesOf _ = none
      rw [hemp]
      rfl

/-- Scenario-E store: rounds 1 and 3 present (one attempt each, a hit and a
miss respectively), round 2 absent. -/
def claim7store : MotorStore :=
  { sessions := ["s"], traceBuckets := [],
    attemptBuckets := [("s", [⟨1, false, [plainEA 1 true, plainEA 3 false]⟩])] }

/-- Witness for claim C7 (scenario E): with only rounds 1 and 3 present the
`r2` block is absent and `hitRate_trend` is the round-3 hit rate (0) minus the
round-1 hit rate (1). -/
theorem claim7_witness :
    (computeSessionFeatures claim7store "s").r2 = none ∧
    (computeSessionFeatures claim7store "s").hitRate_trend = some (-1) :=
  ⟨(claim7_trends claim7store "s").2.2.2.1 (by decide!),
   ((claim7_trends claim7store "s").1).trans (by decide!)⟩

/-! ## Projection helpers for the full extraction path -/

/-- Path length of the moving segment (step 3 of the extractor). -/
def pathLengthOf (inp : ExtractInput) : ℚ :=
  (((moveSegOf inp).zip (moveSegOf inp).tail).map (fun p => distQ p.1.pt p.2.pt)).sum

/-- Distance from movement start to the target center. -/
def directDistOf (inp : ExtractInput) : ℚ :=
  distQ ⟨((moveSegOf inp).headD sample0).x, ((moveSegOf inp).headD sample0).y⟩ inp.target.pt

/-- Distance from the final point of the moving segment to the target. -/
def errorDistOf (inp : ExtractInput) : ℚ :=
  distQ ⟨((moveSegOf inp).getLastD sample0).x, ((moveSegOf inp).getLastD sample0).y⟩ inp.target.pt

/-- Movement time: duration of the moving segment. -/
def movementTimeOf (inp : ExtractInput) : ℚ :=
  ((moveSegOf inp).getLastD sample0).tms - ((moveSegOf inp).headD sample0).tms

/-- The index of difficulty: `log2(D/W + 1)` when `W > 0`, `none` otherwise. -/
def fittsIDOf (inp : ExtractInput) : Option ℚ :=
  if 0 < 2 * inp.target.radius then
    some (log2q (directDistOf inp / (2 * inp.target.radius) + 1))
  else none

lemma extractFull_pathLengthNorm (inp : ExtractInput) :
    (extractFull inp).spatial.pathLengthNorm = some (pathLengthOf inp) := rfl

lemma extractFull_directDistNorm (inp : ExtractInput) :
    (extractFull inp).spatial.directDistNorm = some (directDistOf inp) := rfl

lemma extractFull_straightness (inp : ExtractInput) :
    (extractFull inp).spatial.straightness =
      (if 0 < pathLengthOf inp then some (directDistOf inp / pathLengthOf inp) else none) := rfl

lemma extractFull_errorDistNorm (inp : ExtractInput) :
    (extractFull inp).spatial.errorDistNorm =
      (if 0 < inp.target.radius then some (errorDistOf inp / inp.target.radius) else none) := rfl

lemma extractFull_movementTime (inp : ExtractInput) :
    (extractFull inp).timing.movementTimeMs = some (movementTimeOf inp) := rfl

lemma extractFull_D (inp : ExtractInput) :
    (extractFull inp).fitts.D = some (directDistOf inp) := rfl

lemma extractFull_W (inp : ExtractInput) :
    (extractFull inp).fitts.W = some (2 * inp.target.radius) := rfl

lemma extractFull_ID (inp : ExtractInput) :
    (extractFull inp).fitts.ID = fittsIDOf inp := rfl

lemma extractFull_throughput (inp : ExtractInput) :
    (extractFull inp).fitts.throughput =
      (fittsIDOf inp).map (fun i => i / max (movementTimeOf inp / 1000) 0.05) := by
  have hm : (extractFull inp).fitts.throughput =
      (match fittsIDOf inp, some (max (movementTimeOf inp / 1000) (0.05 : ℚ)) with
       | some i, some m => some (i / m)
       | _, _ => (none : Option ℚ)) := rfl
  rw [hm]
  cases fittsIDOf inp <;> rfl

/-! ## Claim C5 -/

/-- Claim C5: on the full extraction path the Fitts block satisfies
`D = directDistNorm`, `W = 2 × radius`, `ID = log2(D/W + 1)` when `W > 0` and
`none` otherwise, and `throughput = ID / movementTimeSec` with the movement
time (in seconds) floor-clamped to `0.05` (and `none` exactly when `ID` is
`none`, since `movementTimeMs` is always present on this path). -/
theorem claim5_fitts (inp : ExtractInput) (h : 4 ≤ (segOf inp).length) :
    (extractAttemptFeatures inp).fitts.D = (extractAttemptFeatures inp).spatial.directDistNorm ∧
    (extractAttemptFeatures inp).fitts.W = some (2 * inp.target.radius) ∧
    (extractAttemptFeatures inp).fitts.ID =
      (if 0 < 2 * inp.target.radius then
        ((extractAttemptFeatures inp).fitts.D).map
          (fun dv => log2q (dv / (2 * inp.target.radius) + 1))
       else none) ∧
    (extractAttemptFeatures inp).fitts.throughput =
      ((extractAttemptFeatures inp).timing.movementTimeMs).bind
        (fun mt => ((extractAttemptFeatures inp).fitts.ID).map
          (fun i => i / max (mt / 1000) 0.05)) := by
  rw [extract_eq_full inp (by omega)]
  refine ⟨(extractFull_D inp).trans (extractFull_directDistNorm inp).symm,
    extractFull_W inp, ?_, ?_⟩
  · rw [extractFull_ID, extractFull_D]
    unfold fittsIDOf
    by_cases hw : 0 < 2 * inp.target.radius
    · rw [if_pos hw, if_pos hw]
      rfl
    · rw [if_neg hw, if_neg hw]
  · rw [extractFull_throughput, extractFull_movementTime, extractFull_ID]
    rfl

/-- The C5 witness input: 4 samples on a straight horizontal line. -/
def claim5inp : ExtractInput :=
  { samples := [⟨1, 0, 0.1, 0.3⟩, ⟨1, 10, 0.2, 0.3⟩, ⟨1, 20, 0.3, 0.3⟩, ⟨1, 30, 0.4, 0.3⟩]
    spawnTms := 0
    clickTms := 30
    target := ⟨0.5, 0.3, 0.1⟩
    prevClickTms := none }

/-- Witness for claim C5 at `claim5inp`. -/
theorem claim5_witness :
    4 ≤ (segOf claim5inp).length ∧
    ((extractAttemptFeatures claim5inp).fitts.D =
       (extractAttemptFeatures claim5inp).spatial.directDistNorm ∧
     (extractAttemptFeatures claim5inp).fitts.W = some (2 * claim5inp.target.radius) ∧
     (extractAttemptFeatures claim5inp).fitts.ID =
       (if 0 < 2 * claim5inp.target.radius then
         ((extractAttemptFeatures claim5inp).fitts.D).map
           (fun dv => log2q (dv / (2 * claim5inp.target.radius) + 1))
        else none) ∧
     (extractAttemptFeatures claim5inp).fitts.throughput =
       ((extractAttemptFeatures claim5inp).timing.movementTimeMs).bind
         (fun mt => ((extractAttemptFeatures claim5inp).fitts.ID).map
           (fun i => i / max (mt / 1000) 0.05))) :=
  ⟨by decide!, claim5_fitts claim5inp (by decide!)⟩

/-! ## Claim C4 -/

/-- The C4 input: a 4-sample moving segment approaching the target
monotonically in distance (no distance reversal), with a lateral oscillation
in `y` inside the gate.  All distances to the target are exact rationals
(`0.8, 0.75, 0.7, 0.6`). -/
def claim4inp : ExtractInput :=
  { samples := [⟨1, 0, 0.48, 0.64⟩, ⟨1, 10, 0.45, 0.6⟩, ⟨1, 20, 28/85, 21/34⟩, ⟨1, 30, 0.36, 0.48⟩]
    spawnTms := 0
    clickTms := 30
    target := { x := 0, y := 0, radius := 0.2 }
    prevClickTms := none }

/-- Claim C4 counterexample: at `claim4inp` the code's `overshootCount` is `0`
(detector 3 is skipped entirely because the moving segment has only 4 samples
and the code requires more than 4), while the claim's detector (3) — all
samples inside the gate whose x- or y-step reverses sign beyond `0.002` — is
`2`, so the claimed maximum is `2 ≠ 0`. -/
theorem claim4_counterexample :
    (extractAttemptFeatures claim4inp).kinematics.overshootCount = some 0 ∧
    max (max (overshootMethod1 claim4inp) (overshootMethod2 claim4inp))
      (overshootMethod3Claim claim4inp) = 2 := by
  exact ⟨by decide!, by decide!⟩

/-- Claim C4 (amended): on the full extraction path `overshootCount` is the
maximum of the three detector counts, where detectors (1) and (2) are as the
claim states them and detector (3) (positional oscillation inside the gate)
counts indices from `i = 3` on and applies only when the moving segment has
more than 4 samples. -/
theorem claim4_overshoot_max (inp : ExtractInput) (h : 4 ≤ (segOf inp).length) :
    (extractAttemptFeatures inp).kinematics.overshootCount =
      some (Nat.cast (max (max (overshootMethod1 inp) (overshootMethod2 inp))
        (overshootMethod3 inp))) := by
  rw [extract_eq_full inp (by omega)]
  rfl

/-- Witness for the amended claim C4 at `claim4inp` (where the maximum is 0). -/
theorem claim4_witness :
    4 ≤ (segOf claim4inp).length ∧
    (extractAttemptFeatures claim4inp).kinematics.overshootCount =
      some (Nat.cast (max (max (overshootMethod1 claim4inp) (overshootMethod2 claim4inp))
        (overshootMethod3 claim4inp))) :=
  ⟨by decide!, claim4_overshoot_max claim4inp (by decide!)⟩

/-! ## Claim C9 -/

/-- Claim C9: on the full extraction path, a zero path length makes
`straightness` `none`, and a zero target radius makes `errorDistNorm`,
`fitts.ID` and `fitts.throughput` all `none`.  (The extractor is a total
function — no degenerate case raises an exception.) -/
theorem claim9_degenerate (inp : ExtractInput) (h : 4 ≤ (segOf inp).length) :
    ((extractAttemptFeatures inp).spatial.pathLengthNorm = some 0 →
      (extractAttemptFeatures inp).spatial.straightness = none) ∧
    (inp.target.radius = 0 →
      (extractAttemptFeatures inp).spatial.errorDistNorm = none ∧
      (extractAttemptFeatures inp).fitts.ID = none ∧
      (extractAttemptFeatures inp).fitts.throughput = none) := by
  rw [extract_eq_full inp (by omega)]
  constructor
  · intro hp
    rw [extractFull_pathLengthNorm] at hp
    have h0 := Option.some.inj hp
    rw [extractFull_straightness, h0]
    simp
  · intro hr
    refine ⟨?_, ?_, ?_⟩
    · rw [extractFull_errorDistNorm, hr]
      simp
    · rw [extractFull_ID]
      unfold fittsIDOf
      rw [hr]
      simp
    · rw [extractFull_throughput]
      unfold fittsIDOf
      rw [hr]
      simp

/-- The C9 witness input: four coincident samples and a zero-radius target
(zero path length and degenerate geometry at once). -/
def claim9inp : ExtractInput :=
  { samples := [⟨1, 0, 0.2, 0.2⟩, ⟨1, 10, 0.2, 0.2⟩, ⟨1, 20, 0.2, 0.2⟩, ⟨1, 30, 0.2, 0.2⟩]
    spawnTms := 0
    clickTms := 30
    target := ⟨0.4, 0.4, 0⟩
    prevClickTms := none }

/-- Witness for claim C9 at `claim9inp`. -/
theorem claim9_witness :
    4 ≤ (segOf claim9inp).length ∧
    (extractAttemptFeatures claim9inp).spatial.pathLengthNorm = some 0 ∧
    (extractAttemptFeatures claim9inp).spatial.straightness = none ∧
    (extractAttemptFeatures claim9inp).spatial.errorDistNorm = none ∧
    (extractAttemptFeatures claim9inp).fitts.ID = none ∧
    (extractAttemptFeatures claim9inp).fitts.throughput = none :=
  have h := claim9_degenerate claim9inp (by decide!)
  ⟨by decide!, by decide!, h.1 (by decide!), (h.2 rfl).1, (h.2 rfl).2.1, (h.2 rfl).2.2⟩

/-! ## Claim C10 -/

/-- Membership in the selected segment bounds the timestamp by the window. -/
lemma mem_segOf_bounds (inp : ExtractInput) {s : Sample} (hs : s ∈ segOf inp) :
    inp.spawnTms ≤ s.tms ∧ s.tms ≤ inp.clickTms := by
  unfold segOf at hs
  rw [List.mem_filter] at hs
  have h2 := hs.2
  simp only [Bool.and_eq_true, decide_eq_true_eq] at h2
  exact h2

/-- The movement-start index lies inside a nonempty segment. -/
lemma startIdxOf_lt_length (seg : List Sample) (h : seg ≠ []) :
    startIdxOf seg < seg.length := by
  have hpos : 0 < seg.length := List.length_pos.mpr h
  unfold startIdxOf
  split
  · rename_i i hi
    have hmem := List.mem_of_find?_eq_some hi
    have := List.mem_range.mp hmem
    omega
  · exact hpos

/-- The moving segment of a nonempty segment is nonempty. -/
lemma moveSegOf_ne_nil (inp : ExtractInput) (h : segOf inp ≠ []) : moveSegOf inp ≠ [] := by
  have hlt := startIdxOf_lt_length (segOf inp) h
  unfold moveSegOf
  intro hnil
  have hl := congrArg List.length hnil
  rw [List.length_drop] at hl
  simp only [List.length_nil] at hl
  omega

/-- Claim C10: for inputs whose samples are sorted by timestamp and with
`clickTms ≥ spawnTms`, `reactionTimeMs = clickTms - spawnTms`, and whenever
`movementTimeMs` is non-null it satisfies `0 ≤ movementTimeMs ≤
reactionTimeMs` — the moving segment's first and last timestamps both lie
inside the `[spawnTms, clickTms]` window. -/
theorem claim10_movement_bounds (inp : ExtractInput)
    (hsort : List.Pairwise (fun a b : Sample => a.tms ≤ b.tms) inp.samples)
    (hsc : inp.spawnTms ≤ inp.clickTms) :
    (extractAttemptFeatures inp).timing.reactionTimeMs = some (inp.clickTms - inp.spawnTms) ∧
    (∀ mt, (extractAttemptFeatures inp).timing.movementTimeMs = some mt →
      0 ≤ mt ∧ mt ≤ inp.clickTms - inp.spawnTms) := by
  by_cases hlen : (segOf inp).length < 4
  · rw [extract_eq_minimal inp hlen]
    exact ⟨rfl, fun mt hmt => Option.noConfusion hmt⟩
  · rw [extract_eq_full inp hlen]
    refine ⟨rfl, ?_⟩
    intro mt hmt
    rw [extractFull_movementTime] at hmt
    have hmt2 : mt = movementTimeOf inp := (Option.some.inj hmt).symm
    subst hmt2
    have hsegne : segOf inp ≠ [] := by
      intro hnil
      rw [hnil] at hlen
      simp at hlen
    have hmsne : moveSegOf inp ≠ [] := moveSegOf_ne_nil inp hsegne
    have hseg_sorted : (segOf inp).Pairwise (fun a b => a.tms ≤ b.tms) := hsort.filter _
    have hms_sorted : (moveSegOf inp).Pairwise (fun a b => a.tms ≤ b.tms) :=
      List.Pairwise.sublist (by unfold moveSegOf; exact List.drop_sublist _ _) hseg_sorted
    have hsub : ∀ x ∈ moveSegOf inp, x ∈ segOf inp := by
      intro x hx
      unfold moveSegOf at hx
      exact List.mem_of_mem_drop hx
    obtain ⟨a, rest, hms⟩ := List.exists_cons_of_ne_nil hmsne
    rw [hms] at hms_sorted
    have hmtval : movementTimeOf inp = (rest.getLastD a).tms - a.tms := by
      unfold movementTimeOf
      rw [hms, List.getLastD_cons, List.headD_cons]
    have hlast_mem : rest.getLastD a ∈ moveSegOf inp := by
      rw [hms]
      exact List.getLastD_mem_cons rest a
    have hhead_mem : a ∈ moveSegOf inp := by
      rw [hms]
      exact List.mem_cons_self a rest
    have hp : ∀ x ∈ rest, a.tms ≤ x.tms := (List.pairwise_cons.mp hms_sorted).1
    have hle : a.tms ≤ (rest.getLastD a).tms := by
      rcases List.mem_cons.mp (List.getLastD_mem_cons rest a) with hcase | hcase
      · rw [hcase]
      · exact hp _ hcase
    have hbnd_a := mem_segOf_bounds inp (hsub a hhead_mem)
    have hbnd_l := mem_segOf_bounds inp (hsub _ hlast_mem)
    rw [hmtval]
    constructor
    · linarith
    · linarith [hbnd_a.1, hbnd_l.2]

/-- The C10 witness input: four sorted samples on a horizontal line. -/
def claim10inp : ExtractInput :=
  { samples := [⟨1, 0, 0, 0.5⟩, ⟨1, 10, 0.01, 0.5⟩, ⟨1, 20, 0.02, 0.5⟩, ⟨1, 30, 0.03, 0.5⟩]
    spawnTms := 0
    clickTms := 30
    target := ⟨0.5, 0.5, 0.1⟩
    prevClickTms := none }

/-- Witness for claim C10 at `claim10inp` (movement time 30 within the
30 ms reaction window). -/
theorem claim10_witness :
    List.Pairwise (fun a b : Sample => a.tms ≤ b.tms) claim10inp.samples ∧
    claim10inp.spawnTms ≤ claim10inp.clickTms ∧
    ((extractAttemptFeatures claim10inp).timing.reactionTimeMs =
       some (claim10inp.clickTms - claim10inp.spawnTms) ∧
     (0 ≤ (30 : ℚ) ∧ (30 : ℚ) ≤ claim10inp.clickTms - claim10inp.spawnTms)) :=
  have hsort : List.Pairwise (fun a b : Sample => a.tms ≤ b.tms) claim10inp.samples := by
    simp only [claim10inp, List.pairwise_cons, List.mem_cons, List.not_mem_nil]
    norm_num
  have h := claim10_movement_bounds claim10inp hsort (by decide!)
  ⟨hsort, by decide!, h.1, h.2 30 (by decide!)⟩
